import Mathlib

/-!
Verification of the Nickelodeon table-scraping core of this repository
(`src/nickelodean/parse_nick.py`).

Modelling conventions:
- Python strings are sequences of code points, modelled as `List Char`
  (`PyStr`).  Single-character `str.split` is `List.splitOn`, whose
  semantics agree with Python for a non-empty separator.
- Fallible Python code (index errors, key errors, dataframe shape errors)
  is modelled with `Except PyErr`.
- A table is modelled at the granularity the decoders actually work at:
  the list of row blocks, each row block a list of cell strings.  The raw
  `c.text` splitting that produces these blocks is an external concern
  (HTML text extraction) and is outside the decoders.
- The polars dataframe sink and the chrono `strptime` date parser are
  external libraries; they are modelled from the exact format strings and
  dataframe operations appearing in the source: row-oriented construction
  rejects a row whose cell count differs from the schema width, column
  references to missing columns fail, `strptime(..., strict=False)` maps
  an unparseable token to an absent value.
-/

/-- Python string: a sequence of code points. -/
abbrev PyStr := List Char

/-- Build a `PyStr` from a Lean string literal. -/
def str (s : String) : PyStr := s.data

/-- A table cell after padding: either a real string or Python `None`. -/
abbrev PyCell := Option PyStr

/-- The kinds of exceptions the modelled Python code can raise. -/
inductive PyErr where
  | indexError
  | keyError
  | shapeError
  | columnNotFound
  | valueError
deriving DecidableEq, Repr

deriving instance DecidableEq for Except

/-- Python `sub in s` for strings: substring containment. -/
def pyInStr (sub s : PyStr) : Bool :=
  match s with
  | [] => sub.isEmpty
  | _ :: t => sub.isPrefixOf s || pyInStr sub t

/-- Python `s.split("[")[0]`: the text before the first `[`. -/
def remove_notes_str (s : PyStr) : PyStr := (s.splitOn '[').headD []

/-- Python `s.split("[")[0].split(")")[-1]`: drop a bracketed note suffix,
then keep only the text after the last `)` (the "shorts" qualifier strip).
This is the cleanup `_remove_notes(remove_shorts=True)` applies to date
columns and that `_is_date` applies to a candidate token. -/
def remove_notes_shorts_str (s : PyStr) : PyStr :=
  (((s.splitOn '[').headD []).splitOn ')').getLastD []

/-- Parse a non-empty all-digit string to a natural number (Python `int`
conversion used by the modelled numeric casts). -/
def pyStrToNat? (s : PyStr) : Option Nat :=
  if s.isEmpty then none
  else if s.all Char.isDigit then
    some (s.foldl (fun acc c => acc * 10 + (c.toNat - 48)) 0)
  else none

/-- Translation of `_is_date` from `parse_nick.py`, branch by branch.  The
Python function can raise an `IndexError` at `split_by_comma[0].split(" ")[1]`
when the pre-comma part contains no space; the translation keeps that
fallibility in the `Except` result. -/
def is_date (v0 : PyStr) : Except PyErr Bool :=
  let v := remove_notes_shorts_str v0
  if v.length = 4 ∧ (v.headD ' ' = '1' ∨ v.headD ' ' = '2') then .ok true
  else if ',' ∈ v then
    match v.splitOn ',' with
    | [a, b] =>
      if b.length = 5 then
        match a.splitOn ' ' with
        | _ :: w :: _ => .ok (decide (w.length = 1 ∨ w.length = 2))
        | _ => .error .indexError
      else .ok false
    | _ => .ok false
  else
    match v.splitOn ' ' with
    | [_, y] => .ok (decide (y.length = 4 ∧ (y.headD ' ' = '1' ∨ y.headD ' ' = '2')))
    | _ => .ok false

/-- The condition under which `is_date` raises: cleaned token is not a
4-character year starting with `1`/`2`, contains a comma splitting it into
exactly two parts, the second part has length 5, and the first part
contains no space. -/
def is_date_raises (v0 : PyStr) : Bool :=
  let v := remove_notes_shorts_str v0
  if v.length = 4 ∧ (v.headD ' ' = '1' ∨ v.headD ' ' = '2') then false
  else if ',' ∈ v then
    match v.splitOn ',' with
    | [a, b] =>
      if b.length = 5 then
        match a.splitOn ' ' with
        | _ :: _ :: _ => false
        | _ => true
      else false
    | _ => false
  else false

/-- Translation of `_count_n_dates`: count the date-shaped tokens of a row, propagating a
raised exception from `_is_date`. -/
def count_n_dates : List PyStr → Except PyErr Nat
  | [] => .ok 0
  | v :: rest =>
    match is_date v with
    | .ok b =>
      match count_n_dates rest with
      | .ok n => .ok (if b then n + 1 else n)
      | .error e => .error e
    | .error e => .error e

/-- A calendar date as produced by the modelled date parser. -/
structure PDate where
  year : Nat
  month : Nat
  day : Nat
deriving DecidableEq, Repr

/-- English month names with their numbers, for the chrono `%B` specifier
as it occurs in the source document. -/
def monthNames : List (PyStr × Nat) :=
  [(str "January", 1), (str "February", 2), (str "March", 3),
   (str "April", 4), (str "May", 5), (str "June", 6),
   (str "July", 7), (str "August", 8), (str "September", 9),
   (str "October", 10), (str "November", 11), (str "December", 12)]

def isLeapYear (y : Nat) : Bool :=
  (y % 4 = 0 && y % 100 ≠ 0) || y % 400 = 0

def daysInMonth (y m : Nat) : Nat :=
  if m = 2 then (if isLeapYear y then 29 else 28)
  else if m = 4 ∨ m = 6 ∨ m = 9 ∨ m = 11 then 30
  else 31

/-- A bare 4-digit year token. -/
def parseYearToken (s : PyStr) : Option Nat :=
  if s.length = 4 then pyStrToNat? s else none

/-- Modelled external date parser for format `%Y` (polars `strptime` with
`strict=False`): a bare four-digit year, defaulting month and day to 1. -/
def parse_date_y (s : PyStr) : Option PDate :=
  (parseYearToken s).map (fun y => ⟨y, 1, 1⟩)

/-- Modelled external date parser for format `%B %Y`: month name, space,
four-digit year, defaulting the day to 1. -/
def parse_date_by (s : PyStr) : Option PDate :=
  match monthNames.find? (fun p => p.1.isPrefixOf s) with
  | none => none
  | some (nm, m) =>
    match s.drop nm.length with
    | ' ' :: rest =>
      (parseYearToken rest).map (fun y => ⟨y, m, 1⟩)
    | _ => none

/-- Modelled external date parser for format `%B %-d, %Y`: month name,
space, 1-2 digit day, comma, space, four-digit year, with the day checked
against the month length. -/
def parse_date_bdy (s : PyStr) : Option PDate :=
  match monthNames.find? (fun p => p.1.isPrefixOf s) with
  | none => none
  | some (nm, m) =>
    match s.drop nm.length with
    | ' ' :: rest =>
      match rest.splitOn ',' with
      | [dstr, ystr0] =>
        match ystr0 with
        | ' ' :: ystr =>
          match pyStrToNat? dstr, parseYearToken ystr with
          | some d, some y =>
            if dstr.length ≤ 2 ∧ 1 ≤ d ∧ d ≤ daysInMonth y m then
              some ⟨y, m, d⟩
            else none
          | _, _ => none
        | _ => none
      | _ => none
    | _ => none

/-- Translation of `_convert_date`: select the grammar by content inspection (comma, then
space, then bare year); an unparseable token becomes absent
(`strict=False`), and an absent input stays absent. -/
def convert_date : Option PyStr → Option PDate
  | none => none
  | some s =>
    if ',' ∈ s then parse_date_bdy s
    else if ' ' ∈ s then parse_date_by s
    else parse_date_y s

/-- Polars `cast(pl.UInt16, strict=False)` on a text column: a decimal
string in range becomes the number, anything else becomes absent. -/
def castUInt16 : Option PyStr → Option Nat
  | none => none
  | some s =>
    match pyStrToNat? s with
    | some n => if n < 65536 then some n else none
    | none => none

/-- Translation of `__col_map`: recognized column headers.  An unrecognized header is a
`KeyError` at the caller. -/
def colMap (c : PyStr) : Option PyStr :=
  if c = str "Title" then some (str "Title")
  else if c = str "Premiere date" then some (str "PremiereDate")
  else if c = str "Finale date" then some (str "FinaleDate")
  else if c = str "Current season" then some (str "NumberSeasons")
  else if c = str "Notes" then some (str "_notes")
  else if c = str "Note(s)" then some (str "_notes")
  else none

/-- Map every header cell through `__col_map`, raising `KeyError` on the
first unrecognized one (the Python dict comprehension). -/
def colsMapped : List PyStr → Except PyErr (List PyStr)
  | [] => .ok []
  | c :: t =>
    match colMap c with
    | some m =>
      match colsMapped t with
      | .ok ms => .ok (m :: ms)
      | .error e => .error e
    | none => .error .keyError

/-- Keys of a Python dict built by insertion: first-occurrence order with
later duplicates collapsed. -/
def firstDedup (seen : List PyStr) : List PyStr → List PyStr
  | [] => []
  | k :: t => if k ∈ seen then firstDedup seen t else k :: firstDedup (k :: seen) t

/-- The four heading levels the page uses. -/
inductive HLevel where
  | h2
  | h3
  | h4
  | h5
deriving DecidableEq, Repr

def HLevel.index : HLevel → Nat
  | .h2 => 0
  | .h3 => 1
  | .h4 => 2
  | .h5 => 3

/-- State of `NickelodeanHeaderDepth`: current header index plus the four stored
header values. -/
structure NickelodeanHeaderDepth where
  headerIndex : Nat
  headerVals : List (Option PyStr)
deriving DecidableEq, Repr

def initHeaderDepth : NickelodeanHeaderDepth := ⟨0, [none, none, none, none]⟩

/-- The clearing `while index_diff > 0` loop of `update_depth`: sets the
slots `base + diff`, `base + diff - 1`, ..., `base + 1` to `None`. -/
def clearLoop (vals : List (Option PyStr)) (base : Nat) : Nat → List (Option PyStr)
  | 0 => vals
  | diff + 1 => clearLoop (vals.set (base + diff + 1) none) base diff

/-- Translation of `update_depth` for a heading node: store the text at the heading level,
then clear every slot between the new level and the old (deeper) level. -/
def update_depth (st : NickelodeanHeaderDepth) (lv : HLevel) (text : PyStr) :
    NickelodeanHeaderDepth :=
  let i := lv.index
  let vals := st.headerVals.set i (some text)
  ⟨i, clearLoop vals i (st.headerIndex - i)⟩

/-- Process a sequence of heading observations in order. -/
def foldObs (st : NickelodeanHeaderDepth) : List (HLevel × PyStr) → NickelodeanHeaderDepth
  | [] => st
  | (lv, t) :: rest => foldObs (update_depth st lv t) rest

def hdrH2 (st : NickelodeanHeaderDepth) : Option PyStr := st.headerVals.getD 0 none
def hdrH3 (st : NickelodeanHeaderDepth) : Option PyStr := st.headerVals.getD 1 none
def hdrH4 (st : NickelodeanHeaderDepth) : Option PyStr := st.headerVals.getD 2 none
def hdrH5 (st : NickelodeanHeaderDepth) : Option PyStr := st.headerVals.getD 3 none

/-- The header snapshot stamped onto a table when it is parsed. -/
structure HeaderSnap where
  h2 : Option PyStr
  h3 : Option PyStr
  h4 : Option PyStr
  h5 : Option PyStr
deriving DecidableEq, Repr

def snapOf (st : NickelodeanHeaderDepth) : HeaderSnap :=
  ⟨hdrH2 st, hdrH3 st, hdrH4 st, hdrH5 st⟩

/-- The fixed output schema of `parse_table`. -/
structure NickRecord where
  h2 : Option PyStr
  h3 : Option PyStr
  h4 : Option PyStr
  h5 : Option PyStr
  subIndex : Nat
  title : Option PyStr
  premiereDate : Option PDate
  finaleDate : Option PDate
  numberSeasons : Option Nat
deriving DecidableEq, Repr

/-- Index of the first occurrence of a name in the schema column list. -/
def idxOfCol (a : PyStr) : List PyStr → Nat
  | [] => 0
  | b :: t => if a = b then 0 else idxOfCol a t + 1

/-- The per-row cell-count fix of both decoders:
`if len(row_vals) != len(cols): row_vals.append(None)`. -/
def fixRow (ncols : Nat) (row : List PyStr) : List PyCell :=
  if row.length ≠ ncols then row.map some ++ [none] else row.map some

/-- Whether a raw row block contains the text `Notes` (Python
`"Notes" in rows[0]`, checked on the newline-joined block, which for a
separator-free needle is containment in some cell). -/
def notesInRow (r : List PyStr) : Bool := r.any (fun c => pyInStr (str "Notes") c)

/-- Append the `[None, None]` schema-inference fix row when the table has
exactly two columns. -/
def blankRowFix (ncols : Nat) (tvals : List (List PyCell)) : List (List PyCell) :=
  if ncols = 2 then tvals ++ [[none, none]] else tvals

/-- Modelled polars sink plus the tail of `_parse_current_shows`:
row-oriented dataframe construction rejects a row whose cell count is not
the schema width; then the notes column is dropped, a missing seasons
column is synthesized absent, rows with an absent title are filtered out,
titles are note-stripped, the premiere date is converted, seasons are cast
permissively, and the finale date is always absent. -/
def buildCurrentRecords (snap : HeaderSnap) (schemaCols : List PyStr)
    (tvals : List (List PyCell)) : Except PyErr (List NickRecord) :=
  if tvals.any (fun r => r.length ≠ schemaCols.length) then .error .shapeError
  else if str "Title" ∈ schemaCols then
    if str "PremiereDate" ∈ schemaCols then
      let tIdx := idxOfCol (str "Title") schemaCols
      let pIdx := idxOfCol (str "PremiereDate") schemaCols
      let kept := tvals.filter (fun r => (r.getD tIdx none).isSome)
      .ok (kept.enum.map (fun p =>
        { h2 := snap.h2, h3 := snap.h3, h4 := snap.h4, h5 := snap.h5
          subIndex := p.1
          title := (p.2.getD tIdx none).map remove_notes_str
          premiereDate := convert_date (p.2.getD pIdx none)
          finaleDate := none
          numberSeasons :=
            if str "NumberSeasons" ∈ schemaCols then
              castUInt16 (p.2.getD (idxOfCol (str "NumberSeasons") schemaCols) none)
            else none }))
    else .error .columnNotFound
  else .error .columnNotFound

/-- Translation of `_parse_current_shows` on the row blocks of a table: pop the header
row, apply the `"Notes"` header fix, build the schema, pad each data row
that mismatches the header width with one absent trailing cell, append
the two-column blank row, and hand off to the dataframe stage. -/
def parse_current_shows (snap : HeaderSnap) (rows0 : List (List PyStr)) :
    Except PyErr (List NickRecord) :=
  match rows0 with
  | [] => .error .indexError
  | cols0 :: drows0 =>
    match drows0 with
    | [] => .error .indexError
    | first :: rest =>
      let cols := if notesInRow first then cols0 ++ [str "Notes"] else cols0
      let drows := if notesInRow first then rest else first :: rest
      match colsMapped cols with
      | .error e => .error e
      | .ok mapped =>
        let schemaCols := firstDedup [] mapped
        let tvals := blankRowFix cols.length (drows.map (fixRow cols.length))
        buildCurrentRecords snap schemaCols tvals

/-- State threaded through the former-programming row loop. -/
structure FormerSt where
  prevPremiere : PyStr
  titleStack : List PyStr
  dateStack : List (List PyStr)
  combining : Bool
  tableVals : List (List PyCell)
deriving DecidableEq, Repr

def initFormerSt : FormerSt := ⟨[], [], [], false, []⟩

/-- The record row appended by one iteration of the grouped-date flush
loop: `[title, first date, second date, None]`. -/
def pairRow (t : PyStr) (d0 d1 : PyStr) : List PyCell :=
  [some t, some d0, some d1, none]

/-- The flush loop once the title stack has reached its last element: the
remaining date pairs are consumed one by one against that fixed title. -/
def flushDates (t : PyStr) (acc : List (List PyCell)) :
    List (List PyStr) → Except PyErr (List PyStr × List (List PyStr) × List (List PyCell))
  | [] => .error .indexError
  | [d] =>
    match d with
    | d0 :: d1 :: _ => .ok ([t], [d], acc ++ [pairRow t d0 d1])
    | _ => .error .indexError
  | d :: ds =>
    match d with
    | d0 :: d1 :: _ => flushDates t (acc ++ [pairRow t d0 d1]) ds
    | _ => .error .indexError

/-- The `while True` flush loop of `_parse_former_shows`: emit the front
title against the front date pair, stop once both stacks are at their last
element, otherwise pop the front of each stack that still has more than
one element.  Accessing the front of an empty stack or a date row with
fewer than two cells is the corresponding Python `IndexError`. -/
def flushLoop (acc : List (List PyCell)) :
    List PyStr → List (List PyStr) → Except PyErr (List PyStr × List (List PyStr) × List (List PyCell))
  | [], _ => .error .indexError
  | [t], ds => flushDates t acc ds
  | t :: ts, ds =>
    match ds with
    | [] => .error .indexError
    | [d] =>
      match d with
      | d0 :: d1 :: _ => flushLoop (acc ++ [pairRow t d0 d1]) ts [d]
      | _ => .error .indexError
    | d :: ds' =>
      match d with
      | d0 :: d1 :: _ => flushLoop (acc ++ [pairRow t d0 d1]) ts ds'
      | _ => .error .indexError

/-- Python `row_vals.insert(1, x)`. -/
def pyInsert1 (x : PyStr) : List PyStr → List PyStr
  | [] => [x]
  | h :: t => h :: x :: t

/-- The part of the former-programming row loop after the
date-count branches: push a date-leading row onto the date stack, flush a
pending cluster when a plain row arrives in combining mode, then pad and
append the row. -/
def formerCont (ncols : Nat) (st : FormerSt) (row : List PyStr) :
    Except PyErr FormerSt :=
  match row with
  | [] => .error .indexError
  | r0 :: _ =>
    match is_date r0 with
    | .error e => .error e
    | .ok true => .ok { st with dateStack := st.dateStack ++ [row] }
    | .ok false =>
      let flushed : Except PyErr FormerSt :=
        if st.combining then
          match flushLoop st.tableVals st.titleStack st.dateStack with
          | .ok (ts, ds, tv) =>
            .ok { st with combining := false, titleStack := ts, dateStack := ds,
                          tableVals := tv }
          | .error e => .error e
        else .ok st
      match flushed with
      | .error e => .error e
      | .ok st1 => .ok { st1 with tableVals := st1.tableVals ++ [fixRow ncols row] }

/-- One iteration of the `_parse_former_shows` row loop: classify the row
by its date-token count (2: remember the premiere date; 1: insert the
remembered premiere date as the second cell; 0: replace the pending title
stack and enter combining mode, emitting nothing), then continue with the
common handling. -/
def formerStep (ncols : Nat) (st : FormerSt) (row : List PyStr) :
    Except PyErr FormerSt :=
  match count_n_dates row with
  | .error e => .error e
  | .ok n =>
    if n = 2 then
      match row with
      | _ :: v1 :: _ => formerCont ncols { st with prevPremiere := v1 } row
      | _ => .error .indexError
    else if n = 1 then
      formerCont ncols st (pyInsert1 st.prevPremiere row)
    else if n = 0 then
      .ok { st with titleStack := row, combining := true }
    else
      formerCont ncols st row

/-- Run the former-programming row loop over all data rows. -/
def formerFold (ncols : Nat) (st : FormerSt) : List (List PyStr) → Except PyErr FormerSt
  | [] => .ok st
  | row :: rest =>
    match formerStep ncols st row with
    | .ok st' => formerFold ncols st' rest
    | .error e => .error e

/-- The loop state left at the end of a former-programming table (header
row popped first). -/
def formerFinalState (rows0 : List (List PyStr)) : Except PyErr FormerSt :=
  match rows0 with
  | [] => .error .indexError
  | cols :: drows => formerFold cols.length initFormerSt drows

/-- Modelled polars sink plus the tail of `_parse_former_shows`: shape
check, title filter, note stripping on the title, note-and-shorts
stripping then date conversion on both date columns, absent seasons. -/
def buildFormerRecords (snap : HeaderSnap) (schemaCols : List PyStr)
    (tvals : List (List PyCell)) : Except PyErr (List NickRecord) :=
  if tvals.any (fun r => r.length ≠ schemaCols.length) then .error .shapeError
  else if str "Title" ∈ schemaCols then
    if str "PremiereDate" ∈ schemaCols then
      if str "FinaleDate" ∈ schemaCols then
        let tIdx := idxOfCol (str "Title") schemaCols
        let pIdx := idxOfCol (str "PremiereDate") schemaCols
        let fIdx := idxOfCol (str "FinaleDate") schemaCols
        let kept := tvals.filter (fun r => (r.getD tIdx none).isSome)
        .ok (kept.enum.map (fun p =>
          { h2 := snap.h2, h3 := snap.h3, h4 := snap.h4, h5 := snap.h5
            subIndex := p.1
            title := (p.2.getD tIdx none).map remove_notes_str
            premiereDate := convert_date ((p.2.getD pIdx none).map remove_notes_shorts_str)
            finaleDate := convert_date ((p.2.getD fIdx none).map remove_notes_shorts_str)
            numberSeasons := none }))
      else .error .columnNotFound
    else .error .columnNotFound
  else .error .columnNotFound

/-- Translation of `_parse_former_shows` on the row blocks of a table. -/
def parse_former_shows (snap : HeaderSnap) (rows0 : List (List PyStr)) :
    Except PyErr (List NickRecord) :=
  match rows0 with
  | [] => .error .indexError
  | cols :: drows =>
    match colsMapped cols with
    | .error e => .error e
    | .ok mapped =>
      match formerFold cols.length initFormerSt drows with
      | .error e => .error e
      | .ok stF =>
        buildFormerRecords snap (firstDedup [] mapped)
          (blankRowFix cols.length stF.tableVals)

/-- Translation of `parse_table`: dispatch on the current H2 heading. -/
def parse_table (snap : HeaderSnap) (rows : List (List PyStr)) :
    Except PyErr (List NickRecord) :=
  if snap.h2 = some (str "Current programming") then parse_current_shows snap rows
  else if snap.h2 = some (str "Former programming") then parse_former_shows snap rows
  else .error .valueError

/-- A node of the flat document walk: a blank (nameless) node, a heading
at one of the four tracked levels, a table (given as its row blocks), or
any other named node. -/
inductive Node where
  | blank
  | heading (lv : HLevel) (text : PyStr)
  | table (rows : List (List PyStr))
  | other
deriving DecidableEq

/-- The driver state: the header tracker plus the accumulated per-table
record sets. -/
structure DriverSt where
  nhd : NickelodeanHeaderDepth
  tables : List (List NickRecord)
deriving DecidableEq

def initDriver : DriverSt := ⟨initHeaderDepth, []⟩

def sentinelStr : PyStr := str "Former aquired programming"

def relevantH2s : List (Option PyStr) :=
  [some (str "Current programming"), some (str "Former programming")]

/-- The main node loop: blanks are skipped before the sentinel check;
headings update the tracker; tables under a recognized H2 are parsed
(fatally on error) and appended, others are skipped before the check; the
loop breaks as soon as the stored H3 equals the sentinel value. -/
def runNodes (st : DriverSt) : List Node → Except PyErr DriverSt
  | [] => .ok st
  | n :: rest =>
    match n with
    | .blank => runNodes st rest
    | .heading lv t =>
      let st' : DriverSt := { st with nhd := update_depth st.nhd lv t }
      if hdrH3 st'.nhd = some sentinelStr then .ok st' else runNodes st' rest
    | .table rows =>
      if hdrH2 st.nhd ∈ relevantH2s then
        match parse_table (snapOf st.nhd) rows with
        | .ok recs =>
          let st' : DriverSt := { st with tables := st.tables ++ [recs] }
          if hdrH3 st'.nhd = some sentinelStr then .ok st' else runNodes st' rest
        | .error e => .error e
      else runNodes st rest
    | .other =>
      if hdrH3 st.nhd = some sentinelStr then .ok st else runNodes st rest

/-- The positional pairing the grouped-date flush is claimed to realize:
`max m n` entries, entry `k` pairing title `min k (m-1)` with date pair
`min k (n-1)`. -/
def pairSeq (ts : List PyStr) (ds : List (List PyStr)) : List (PyStr × List PyStr) :=
  (List.range (max ts.length ds.length)).map
    (fun k => (ts.getD (min k (ts.length - 1)) [], ds.getD (min k (ds.length - 1)) []))

/-- Snapshot with no headings stored (all claims here are about decoder
content, not heading stamping). -/
def snap0 : HeaderSnap := ⟨none, none, none, none⟩

/-- The standard former-programming header row. -/
def hdr4 : List PyStr := [str "Title", str "Premiere date", str "Finale date", str "Notes"]

/-- The row blocks of the claimed former-dialect grouping round trip:
two title-only blocks followed by one two-date block. -/
def c1rows : List (List PyStr) :=
  [hdr4, [str "ShowA"], [str "ShowB"],
   [str "January 1, 1990", str "December 31, 1990"]]

/-- A table ending with a pending (never flushed) grouped-date cluster. -/
def c3rows : List (List PyStr) :=
  [hdr4, [str "PendingX"], [str "March 1, 1991", str "April 2, 1992"]]

/-- A two-date row fixing the remembered premiere date, then a one-date
row that needs that premiere date inserted. -/
def c6rows : List (List PyStr) :=
  [hdr4, [str "ShowB", str "1985", str "1990"], [str "ShowC", str "December 1, 1999"]]

/-- A former-programming table with two grouped-date clusters, each closed
by an ordinary row. -/
def c10rows : List (List PyStr) :=
  [hdr4,
   [str "A1"],
   [str "January 1, 1990", str "December 31, 1990"],
   [str "X", str "1991", str "1992"],
   [str "B1"],
   [str "June 1, 1993", str "July 1, 1994"],
   [str "Y", str "1995", str "1996"]]

/-- A current-programming header with all four recognized columns. -/
def curHdr : List PyStr :=
  [str "Title", str "Premiere date", str "Current season", str "Notes"]

/-- The invariant of the header tracker: every slot strictly deeper than
the current header index is absent. -/
def headerInv (st : NickelodeanHeaderDepth) : Prop :=
  ∀ j, st.headerIndex < j → st.headerVals.getD j none = none


/-! Helper lemmas. -/

theorem getLastD_of_ne_nil {α : Type} (l : List α) (h : l ≠ []) (a b : α) :
    l.getLastD a = l.getLastD b := by
  cases l with
  | nil => exact absurd rfl h
  | cons x xs => rw [List.getLastD_cons, List.getLastD_cons]

theorem getD_set_ne {α : Type} (l : List α) (i j : Nat) (a d : α) (h : i ≠ j) :
    (l.set i a).getD j d = l.getD j d := by
  induction l generalizing i j with
  | nil => simp
  | cons x xs ih =>
    cases i with
    | zero =>
      cases j with
      | zero => exact absurd rfl h
      | succ j => simp
    | succ i =>
      cases j with
      | zero => simp
      | succ j => simpa using ih i j (by omega)

theorem getD_set_self_none {α : Type} (l : List (Option α)) (j : Nat) :
    (l.set j none).getD j none = none := by
  induction l generalizing j with
  | nil => simp
  | cons x xs ih =>
    cases j with
    | zero => simp
    | succ j => simpa using ih j

theorem getD_of_length_le {α : Type} (l : List α) (i : Nat) (d : α)
    (h : l.length ≤ i) : l.getD i d = d := by
  simp [List.getD_eq_getElem?_getD, List.getElem?_eq_none h]

theorem clearLoop_getD_gt (vals : List (Option PyStr)) (base diff j : Nat)
    (h : base + diff < j) : (clearLoop vals base diff).getD j none = vals.getD j none := by
  induction diff generalizing vals with
  | zero => rfl
  | succ diff ih =>
    rw [clearLoop, ih _ (by omega), getD_set_ne _ _ _ _ _ (by omega)]

theorem clearLoop_getD_in (vals : List (Option PyStr)) (base diff j : Nat)
    (h1 : base < j) (h2 : j ≤ base + diff) :
    (clearLoop vals base diff).getD j none = none := by
  induction diff generalizing vals with
  | zero => omega
  | succ diff ih =>
    rw [clearLoop]
    by_cases hj : j = base + diff + 1
    · rw [clearLoop_getD_gt _ _ _ _ (by omega), hj, getD_set_self_none]
    · exact ih _ (by omega)

theorem update_depth_headerIndex (st : NickelodeanHeaderDepth) (lv : HLevel) (t : PyStr) :
    (update_depth st lv t).headerIndex = lv.index := rfl

theorem update_depth_inv (st : NickelodeanHeaderDepth) (lv : HLevel) (t : PyStr)
    (h : headerInv st) : headerInv (update_depth st lv t) := by
  intro j hj
  show (clearLoop (st.headerVals.set lv.index (some t)) lv.index
      (st.headerIndex - lv.index)).getD j none = none
  rw [update_depth_headerIndex] at hj
  by_cases hrange : j ≤ lv.index + (st.headerIndex - lv.index)
  · exact clearLoop_getD_in _ _ _ _ hj hrange
  · rw [clearLoop_getD_gt _ _ _ _ (by omega), getD_set_ne _ _ _ _ _ (by omega)]
    exact h j (by omega)

theorem initHeaderDepth_inv : headerInv initHeaderDepth := by
  intro j hj
  rcases j with _ | _ | _ | _ | j
  · omega
  · rfl
  · rfl
  · rfl
  · exact getD_of_length_le _ _ _ (by simp [initHeaderDepth])

theorem foldObs_inv (obs : List (HLevel × PyStr)) (st : NickelodeanHeaderDepth)
    (h : headerInv st) : headerInv (foldObs st obs) := by
  induction obs generalizing st with
  | nil => exact h
  | cons o rest ih => exact ih _ (update_depth_inv _ _ _ h)

theorem foldObs_append (st : NickelodeanHeaderDepth) (l1 l2 : List (HLevel × PyStr)) :
    foldObs st (l1 ++ l2) = foldObs (foldObs st l1) l2 := by
  induction l1 generalizing st with
  | nil => rfl
  | cons o rest ih => exact ih _

theorem pairSeq_length (ts : List PyStr) (ds : List (List PyStr)) :
    (pairSeq ts ds).length = max ts.length ds.length := by
  simp [pairSeq]

theorem pairSeq_getD (ts : List PyStr) (ds : List (List PyStr)) (k : Nat)
    (h : k < max ts.length ds.length) :
    (pairSeq ts ds).getD k ([], []) =
      (ts.getD (min k (ts.length - 1)) [], ds.getD (min k (ds.length - 1)) []) := by
  rw [pairSeq, List.getD_eq_getElem]
  · simp
  · simpa using h

theorem pairSeq_single (t : PyStr) (ds : List (List PyStr)) (h : ds ≠ []) :
    pairSeq [t] ds = ds.map (fun d => (t, d)) := by
  have hn : 0 < ds.length := List.length_pos.mpr h
  apply List.ext_getElem
  · simp [pairSeq]; omega
  · intro i h1 h2
    have hi : i < ds.length := by simpa using h2
    simp only [pairSeq, List.getElem_map, List.getElem_range]
    have h0 : i ⊓ ([t].length - 1) = 0 := by simp
    have h1' : i ⊓ (ds.length - 1) = i := by omega
    rw [h0, h1', List.getD_eq_getElem ds [] hi]
    simp

theorem pairSeq_cons_one (t t2 : PyStr) (ts : List PyStr) (d : List PyStr) :
    pairSeq (t :: t2 :: ts) [d] = (t, d) :: pairSeq (t2 :: ts) [d] := by
  apply List.ext_getElem
  · simp [pairSeq]
  · intro i h1 h2
    cases i with
    | zero => simp [pairSeq]
    | succ j =>
      simp only [List.getElem_cons_succ, pairSeq, List.getElem_map, List.getElem_range]
      have e1 : (j + 1) ⊓ ((t :: t2 :: ts).length - 1) = j ⊓ ((t2 :: ts).length - 1) + 1 := by
        simp
        omega
      have e2 : (j + 1) ⊓ ([d].length - 1) = j ⊓ ([d].length - 1) := by simp
      rw [e1, e2, List.getD_cons_succ]

theorem pairSeq_cons_cons (t t2 : PyStr) (ts : List PyStr) (d d2 : List PyStr)
    (ds : List (List PyStr)) :
    pairSeq (t :: t2 :: ts) (d :: d2 :: ds) = (t, d) :: pairSeq (t2 :: ts) (d2 :: ds) := by
  apply List.ext_getElem
  · simp [pairSeq]
    omega
  · intro i h1 h2
    cases i with
    | zero => simp [pairSeq]
    | succ j =>
      simp only [List.getElem_cons_succ, pairSeq, List.getElem_map, List.getElem_range]
      have e1 : (j + 1) ⊓ ((t :: t2 :: ts).length - 1) = j ⊓ ((t2 :: ts).length - 1) + 1 := by
        simp
        omega
      have e2 : (j + 1) ⊓ ((d :: d2 :: ds).length - 1) = j ⊓ ((d2 :: ds).length - 1) + 1 := by
        simp
        omega
      rw [e1, e2, List.getD_cons_succ, List.getD_cons_succ]

theorem flushDates_spec (ds : List (List PyStr)) (t : PyStr) (acc : List (List PyCell))
    (h : ds ≠ []) (hlen : ∀ d ∈ ds, 2 ≤ d.length) :
    flushDates t acc ds = .ok ([t], [ds.getLastD []],
      acc ++ ds.map (fun d => pairRow t (d.getD 0 []) (d.getD 1 []))) := by
  induction ds generalizing acc with
  | nil => exact absurd rfl h
  | cons d ds ih =>
    obtain ⟨d0, d1, drest, rfl⟩ : ∃ d0 d1 drest, d = d0 :: d1 :: drest := by
      have hd := hlen d (by simp)
      match d, hd with
      | d0 :: d1 :: drest, _ => exact ⟨d0, d1, drest, rfl⟩
    cases ds with
    | nil => simp [flushDates, pairRow]
    | cons d' ds' =>
      rw [show flushDates t acc ((d0 :: d1 :: drest) :: d' :: ds') =
          flushDates t (acc ++ [pairRow t d0 d1]) (d' :: ds') from rfl]
      rw [ih _ (by simp) (fun x hx => hlen x (by simp [hx]))]
      have hlast : (d' :: ds').getLastD (d0 :: d1 :: drest) = (d' :: ds').getLastD [] :=
        getLastD_of_ne_nil _ (by simp) _ _
      simp [List.getLastD_cons, hlast, pairRow]

theorem flushLoop_spec (ts : List PyStr) (ds : List (List PyStr)) (acc : List (List PyCell))
    (hts : ts ≠ []) (hds : ds ≠ []) (hlen : ∀ d ∈ ds, 2 ≤ d.length) :
    flushLoop acc ts ds = .ok ([ts.getLastD []], [ds.getLastD []],
      acc ++ (pairSeq ts ds).map (fun p => pairRow p.1 (p.2.getD 0 []) (p.2.getD 1 []))) := by
  induction ts generalizing acc ds with
  | nil => exact absurd rfl hts
  | cons t ts ih =>
    cases ts with
    | nil =>
      rw [show flushLoop acc [t] ds = flushDates t acc ds from rfl]
      rw [flushDates_spec ds t acc hds hlen, pairSeq_single t ds hds]
      simp [List.map_map, Function.comp]
    | cons t2 ts' =>
      cases ds with
      | nil => exact absurd rfl hds
      | cons d ds' =>
        obtain ⟨d0, d1, drest, rfl⟩ : ∃ d0 d1 drest, d = d0 :: d1 :: drest := by
          have hd := hlen d (by simp)
          match d, hd with
          | d0 :: d1 :: drest, _ => exact ⟨d0, d1, drest, rfl⟩
        cases ds' with
        | nil =>
          rw [show flushLoop acc (t :: t2 :: ts') [d0 :: d1 :: drest] =
              flushLoop (acc ++ [pairRow t d0 d1]) (t2 :: ts') [d0 :: d1 :: drest] from rfl]
          rw [ih _ _ (by simp) (by simp) hlen]
          rw [pairSeq_cons_one]
          have hlast : (t2 :: ts').getLastD t = (t2 :: ts').getLastD [] :=
            getLastD_of_ne_nil _ (by simp) _ _
          simp [List.getLastD_cons, hlast, pairRow]
        | cons d2 ds'' =>
          rw [show flushLoop acc (t :: t2 :: ts') ((d0 :: d1 :: drest) :: d2 :: ds'') =
              flushLoop (acc ++ [pairRow t d0 d1]) (t2 :: ts') (d2 :: ds'') from rfl]
          rw [ih _ _ (by simp) (by simp) (fun x hx => hlen x (by simp [hx]))]
          rw [pairSeq_cons_cons]
          have hlast1 : (t2 :: ts').getLastD t = (t2 :: ts').getLastD [] :=
            getLastD_of_ne_nil _ (by simp) _ _
          have hlast2 : (d2 :: ds'').getLastD (d0 :: d1 :: drest) = (d2 :: ds'').getLastD [] :=
            getLastD_of_ne_nil _ (by simp) _ _
          simp [List.getLastD_cons, hlast1, hlast2, pairRow]

/-- Claim C4: after any sequence of heading observations ending with a
heading at level L, every stored value strictly deeper than L is absent;
and the concrete sequence H2 A, H3 B, H2 C leaves exactly (C, absent,
absent, absent). -/
theorem c4_header_clearing :
    (∀ (obs : List (HLevel × PyStr)) (lv : HLevel) (t : PyStr) (j : Nat),
      lv.index < j →
      (foldObs initHeaderDepth (obs ++ [(lv, t)])).headerVals.getD j none = none) ∧
    foldObs initHeaderDepth [(.h2, str "A"), (.h3, str "B"), (.h2, str "C")] =
      ⟨0, [some (str "C"), none, none, none]⟩ := by
  constructor
  · intro obs lv t j hj
    rw [foldObs_append]
    simp only [foldObs]
    have hinv := update_depth_inv (foldObs initHeaderDepth obs) lv t
      (foldObs_inv obs initHeaderDepth initHeaderDepth_inv)
    exact hinv j (by rw [update_depth_headerIndex]; exact hj)
  · decide

theorem c4_header_clearing_witness :
    (foldObs initHeaderDepth ([(.h2, str "A")] ++ [(.h3, str "B")])).headerVals.getD 2 none
      = none :=
  c4_header_clearing.1 [(.h2, str "A")] .h3 (str "B") 2 (by decide)

/-- Claim C7: the date grammar is selected by content (comma, then space,
then bare year), an unmatched token becomes absent without an error, and
the four boundary examples evaluate as stated. -/
theorem c7_date_grammar :
    (∀ s : PyStr, ',' ∈ s → convert_date (some s) = parse_date_bdy s) ∧
    (∀ s : PyStr, ',' ∉ s → ' ' ∈ s → convert_date (some s) = parse_date_by s) ∧
    (∀ s : PyStr, ',' ∉ s → ' ' ∉ s → convert_date (some s) = parse_date_y s) ∧
    convert_date (some (str "1999")) = some ⟨1999, 1, 1⟩ ∧
    convert_date (some (str "June 1999")) = some ⟨1999, 6, 1⟩ ∧
    convert_date (some (str "June 5, 1999")) = some ⟨1999, 6, 5⟩ ∧
    convert_date (some (str "not-a-date")) = none := by
  refine ⟨?_, ?_, ?_, by decide, by decide, by decide, by decide⟩
  · intro s h
    simp [convert_date, h]
  · intro s h1 h2
    simp [convert_date, h1, h2]
  · intro s h1 h2
    simp [convert_date, h1, h2]

theorem c7_date_grammar_witness :
    convert_date (some (str "June 1999")) = parse_date_by (str "June 1999") :=
  c7_date_grammar.2.1 (str "June 1999") (by decide) (by decide)

/-- Claim C1 counterexample: on the row blocks of the claimed grouping
round trip the decoder emits no records at all, not 2. -/
theorem c1_counterexample :
    parse_former_shows snap0 c1rows = .ok [] ∧
    ¬ ∃ recs, parse_former_shows snap0 c1rows = Except.ok recs ∧ recs.length = 2 := by
  have h : parse_former_shows snap0 c1rows = .ok [] := by decide
  refine ⟨h, ?_⟩
  rintro ⟨recs, hr, hlen⟩
  rw [h] at hr
  simp only [Except.ok.injEq] at hr
  rw [← hr] at hlen
  simp at hlen

/-- Claim C1 amended: a zero-date row block replaces the pending title
stack with its own cells (earlier queued titles are discarded) and emits
nothing; a date-supplying row only pushes onto the date stack, so the
claimed input emits 0 records, its cluster left pending. -/
theorem c1_amended :
    (∀ (ncols : Nat) (st : FormerSt) (row : List PyStr),
      count_n_dates row = .ok 0 →
      formerStep ncols st row = .ok { st with titleStack := row, combining := true }) ∧
    parse_former_shows snap0 c1rows = .ok [] := by
  constructor
  · intro ncols st row h
    unfold formerStep
    rw [h]
    simp
  · decide

theorem c1_amended_witness :
    formerStep 4 initFormerSt [str "ShowA"] =
      .ok { initFormerSt with titleStack := [str "ShowA"], combining := true } :=
  c1_amended.1 4 initFormerSt [str "ShowA"] (by decide)

/-- Claim C3 counterexample: a table ending in combining mode with
non-empty pending stacks returns successfully with no records and no
error. -/
theorem c3_counterexample :
    formerFinalState c3rows =
      .ok ⟨str "April 2, 1992", [str "PendingX"],
           [[str "March 1, 1991", str "April 2, 1992"]], true, []⟩ ∧
    parse_former_shows snap0 c3rows = .ok [] :=
  ⟨by decide, by decide⟩

/-- Claim C3 amended: an unterminated grouped-date cluster at table end is
silently dropped: the output is built from the emitted table rows alone,
whatever is left pending in the stacks, and no error is raised for it. -/
theorem c3_amended :
    (∀ (snap : HeaderSnap) (cols : List PyStr) (drows : List (List PyStr))
       (st : FormerSt) (mapped : List PyStr),
      colsMapped cols = .ok mapped →
      formerFinalState (cols :: drows) = .ok st →
      parse_former_shows snap (cols :: drows) =
        buildFormerRecords snap (firstDedup [] mapped)
          (blankRowFix cols.length st.tableVals)) ∧
    parse_former_shows snap0 c3rows = .ok [] := by
  constructor
  · intro snap cols drows st mapped hm hst
    simp only [formerFinalState] at hst
    simp only [parse_former_shows, hm, hst]
  · decide

theorem c3_amended_witness :
    parse_former_shows snap0
        (hdr4 :: [[str "PendingX"], [str "March 1, 1991", str "April 2, 1992"]]) =
      buildFormerRecords snap0
        (firstDedup [] [str "Title", str "PremiereDate", str "FinaleDate", str "_notes"])
        (blankRowFix hdr4.length
          (⟨str "April 2, 1992", [str "PendingX"],
            [[str "March 1, 1991", str "April 2, 1992"]], true, []⟩ : FormerSt).tableVals) :=
  c3_amended.1 snap0 hdr4 [[str "PendingX"], [str "March 1, 1991", str "April 2, 1992"]]
    ⟨str "April 2, 1992", [str "PendingX"],
      [[str "March 1, 1991", str "April 2, 1992"]], true, []⟩
    [str "Title", str "PremiereDate", str "FinaleDate", str "_notes"]
    (by decide) (by decide)

/-- Claim C6: a row with exactly one date-shaped token gets the remembered
premiere date inserted as its second cell before ordinary decoding, and
the concrete two-row table decodes as stated. -/
theorem c6_missing_premiere :
    (∀ (ncols : Nat) (st : FormerSt) (row : List PyStr),
      count_n_dates row = .ok 1 →
      formerStep ncols st row = formerCont ncols st (pyInsert1 st.prevPremiere row)) ∧
    parse_former_shows snap0 c6rows =
      .ok [⟨none, none, none, none, 0, some (str "ShowB"),
            some ⟨1985, 1, 1⟩, some ⟨1990, 1, 1⟩, none⟩,
           ⟨none, none, none, none, 1, some (str "ShowC"),
            some ⟨1985, 1, 1⟩, some ⟨1999, 12, 1⟩, none⟩] := by
  constructor
  · intro ncols st row h
    unfold formerStep
    rw [h]
    simp
  · decide

theorem c6_missing_premiere_witness :
    formerStep 4 ⟨str "1985", [], [], false, []⟩ [str "ShowC", str "December 1, 1999"] =
      formerCont 4 ⟨str "1985", [], [], false, []⟩
        (pyInsert1 (str "1985") [str "ShowC", str "December 1, 1999"]) :=
  c6_missing_premiere.1 4 ⟨str "1985", [], [], false, []⟩
    [str "ShowC", str "December 1, 1999"] (by decide)

/-- Claim C2: flushing a cluster with title stack of length m and date
stack of length n emits exactly max m n records, pairing the stacks
positionally from the front and reusing the last element of the shorter
stack, and ends with both stacks reduced to their last element. -/
theorem c2_flush_pairing (ts : List PyStr) (ds : List (List PyStr))
    (acc : List (List PyCell))
    (hts : ts ≠ []) (hds : ds ≠ []) (hlen : ∀ d ∈ ds, 2 ≤ d.length) :
    flushLoop acc ts ds = .ok ([ts.getLastD []], [ds.getLastD []],
      acc ++ (pairSeq ts ds).map (fun p => pairRow p.1 (p.2.getD 0 []) (p.2.getD 1 []))) ∧
    (pairSeq ts ds).length = max ts.length ds.length ∧
    (∀ k, k < max ts.length ds.length →
      (pairSeq ts ds).getD k ([], []) =
        (ts.getD (min k (ts.length - 1)) [], ds.getD (min k (ds.length - 1)) [])) :=
  ⟨flushLoop_spec ts ds acc hts hds hlen, pairSeq_length ts ds,
   fun k hk => pairSeq_getD ts ds k hk⟩

theorem c2_flush_pairing_witness :
    flushLoop [] [str "A", str "B"] [[str "1990", str "1991"]] =
      .ok ([str "B"], [[str "1990", str "1991"]],
        [pairRow (str "A") (str "1990") (str "1991"),
         pairRow (str "B") (str "1990") (str "1991")]) :=
  ((c2_flush_pairing [str "A", str "B"] [[str "1990", str "1991"]] []
      (by decide) (by decide) (by decide)).1).trans (by decide)

/-- Claim C10: a flush leaves the date-pair stack holding exactly its last
element (it is not cleared between clusters), and in the concrete
two-cluster table the first record of the second flush is paired with the
first cluster final date pair (1990-01-01/1990-12-31), not with the second
cluster own first pair (1993-06-01/1994-07-01). -/
theorem c10_datestack_retention :
    (∀ (ts : List PyStr) (ds : List (List PyStr)) (acc : List (List PyCell))
       (res : List PyStr × List (List PyStr) × List (List PyCell)),
      ts ≠ [] → ds ≠ [] → (∀ d ∈ ds, 2 ≤ d.length) →
      flushLoop acc ts ds = .ok res → res.2.1 = [ds.getLastD []]) ∧
    parse_former_shows snap0 c10rows =
      .ok [⟨none, none, none, none, 0, some (str "A1"),
            some ⟨1990, 1, 1⟩, some ⟨1990, 12, 31⟩, none⟩,
           ⟨none, none, none, none, 1, some (str "X"),
            some ⟨1991, 1, 1⟩, some ⟨1992, 1, 1⟩, none⟩,
           ⟨none, none, none, none, 2, some (str "B1"),
            some ⟨1990, 1, 1⟩, some ⟨1990, 12, 31⟩, none⟩,
           ⟨none, none, none, none, 3, some (str "B1"),
            some ⟨1993, 6, 1⟩, some ⟨1994, 7, 1⟩, none⟩,
           ⟨none, none, none, none, 4, some (str "Y"),
            some ⟨1995, 1, 1⟩, some ⟨1996, 1, 1⟩, none⟩] := by
  constructor
  · intro ts ds acc res h1 h2 h3 hres
    rw [flushLoop_spec ts ds acc h1 h2 h3] at hres
    simp only [Except.ok.injEq] at hres
    rw [← hres]
  · decide

theorem c10_datestack_retention_witness :
    (([str "B1"], [[str "June 1, 1993", str "July 1, 1994"]],
      [pairRow (str "B1") (str "June 1, 1993") (str "July 1, 1994")]) :
        List PyStr × List (List PyStr) × List (List PyCell)).2.1 =
      [[[str "June 1, 1993", str "July 1, 1994"]].getLastD []] :=
  c10_datestack_retention.1 [str "B1"] [[str "June 1, 1993", str "July 1, 1994"]] [] _
    (by decide) (by decide) (by decide) (by decide)

theorem runNodes_stop_aux (ns : List Node) (st0 st : DriverSt)
    (h0 : hdrH3 st0.nhd ≠ some sentinelStr)
    (h : runNodes st0 ns = .ok st) (hs : hdrH3 st.nhd = some sentinelStr)
    (ms : List Node) :
    runNodes st0 (ns ++ ms) = .ok st := by
  induction ns generalizing st0 with
  | nil =>
    simp only [runNodes] at h
    simp only [Except.ok.injEq] at h
    rw [h] at h0
    exact absurd hs h0
  | cons n rest ih =>
    cases n with
    | blank =>
      simp only [List.cons_append, runNodes] at h ⊢
      exact ih st0 h0 h
    | heading lv t =>
      simp only [List.cons_append, runNodes] at h ⊢
      by_cases hc : hdrH3 (update_depth st0.nhd lv t) = some sentinelStr
      · rw [if_pos hc] at h ⊢
        exact h
      · rw [if_neg hc] at h ⊢
        exact ih _ hc h
    | table rows =>
      simp only [List.cons_append, runNodes] at h ⊢
      by_cases hmem : hdrH2 st0.nhd ∈ relevantH2s
      · rw [if_pos hmem] at h ⊢
        cases hp : parse_table (snapOf st0.nhd) rows with
        | error e =>
          rw [hp] at h
          simp at h
        | ok recs =>
          rw [hp] at h
          simp only [] at h ⊢
          rw [if_neg h0] at h ⊢
          exact ih _ h0 h
      · rw [if_neg hmem] at h ⊢
        exact ih st0 h0 h
    | other =>
      simp only [List.cons_append, runNodes] at h ⊢
      rw [if_neg h0] at h ⊢
      exact ih st0 h0 h

/-- Claim C8: once the driver has processed a node after which the stored
H3 heading equals the sentinel value, extending the node sequence changes
nothing: no further node is consumed and no further record set is
appended. -/
theorem c8_sentinel_stop (ns ms : List Node) (st : DriverSt)
    (h : runNodes initDriver ns = .ok st) (hs : hdrH3 st.nhd = some sentinelStr) :
    runNodes initDriver (ns ++ ms) = .ok st :=
  runNodes_stop_aux ns initDriver st (by decide) h hs ms

theorem c8_sentinel_stop_witness :
    runNodes initDriver
        ([Node.heading .h3 sentinelStr] ++
         [Node.heading .h2 (str "X"), Node.heading .h4 (str "Y")]) =
      .ok ⟨⟨1, [none, some sentinelStr, none, none]⟩, []⟩ :=
  c8_sentinel_stop [Node.heading .h3 sentinelStr]
    [Node.heading .h2 (str "X"), Node.heading .h4 (str "Y")]
    ⟨⟨1, [none, some sentinelStr, none, none]⟩, []⟩ (by decide) (by decide)

/-- Claim C9 counterexample: the date-shaped-token classifier raises an
index error on a comma token whose pre-comma part has no space. -/
theorem c9_counterexample : is_date (str "abcd, 1990") = .error .indexError := by decide

/-- Claim C9 amended: the classifier is total except when the cleaned
token is not a 4-character year starting with 1 or 2, contains a comma
splitting it into exactly two parts, the second part has length 5, and the
first part contains no space; on exactly those inputs it raises an index
error. -/
theorem c9_amended (v : PyStr) :
    (is_date_raises v = false → ∃ b, is_date v = Except.ok b) ∧
    (is_date_raises v = true → is_date v = Except.error PyErr.indexError) := by
  simp only [is_date, is_date_raises]
  by_cases c1 : (remove_notes_shorts_str v).length = 4 ∧
      ((remove_notes_shorts_str v).headD ' ' = '1' ∨ (remove_notes_shorts_str v).headD ' ' = '2')
  · simp only [if_pos c1]
    simp
  · simp only [if_neg c1]
    by_cases c2 : ',' ∈ remove_notes_shorts_str v
    · simp only [if_pos c2]
      cases hsp : List.splitOn ',' (remove_notes_shorts_str v) with
      | nil => simp
      | cons a t =>
        cases t with
        | nil => simp
        | cons b t2 =>
          cases t2 with
          | cons c t3 => simp
          | nil =>
            by_cases c3 : b.length = 5
            · simp only [if_pos c3]
              cases hsp2 : List.splitOn ' ' a with
              | nil => simp
              | cons x xs =>
                cases xs with
                | nil => simp
                | cons w ws => simp
            · simp only [if_neg c3]
              simp
    · simp only [if_neg c2]
      cases hsp : List.splitOn ' ' (remove_notes_shorts_str v) with
      | nil => simp
      | cons x xs =>
        cases xs with
        | nil => simp
        | cons y ys =>
          cases ys with
          | nil => simp
          | cons z zs => simp

theorem c9_amended_witness :
    is_date (str "abcd-x, 1990") = Except.error PyErr.indexError :=
  (c9_amended (str "abcd-x, 1990")).2 (by decide)

theorem colsMapped_length (cols mapped : List PyStr) (h : colsMapped cols = .ok mapped) :
    mapped.length = cols.length := by
  induction cols generalizing mapped with
  | nil =>
    simp only [colsMapped, Except.ok.injEq] at h
    rw [← h]
  | cons c t ih =>
    simp only [colsMapped] at h
    cases hc : colMap c with
    | none =>
      rw [hc] at h
      simp at h
    | some m =>
      rw [hc] at h
      cases ht : colsMapped t with
      | error e =>
        rw [ht] at h
        simp at h
      | ok ms =>
        rw [ht] at h
        simp only [Except.ok.injEq] at h
        rw [← h]
        simp [ih ms ht]

theorem firstDedup_eq_self (l : List PyStr) (seen : List PyStr) (hnd : l.Nodup)
    (hdisj : ∀ x ∈ l, x ∉ seen) : firstDedup seen l = l := by
  induction l generalizing seen with
  | nil => rfl
  | cons k t ih =>
    simp only [firstDedup]
    rw [if_neg (hdisj k (by simp))]
    congr 1
    apply ih _ (List.Nodup.of_cons hnd)
    intro x hx
    simp only [List.mem_cons]
    rintro (rfl | hxs)
    · exact (List.nodup_cons.mp hnd).1 hx
    · exact hdisj x (by simp [hx]) hxs

theorem fixRow_length_of_eq (n : Nat) (r : List PyStr) (h : r.length = n) :
    (fixRow n r).length = n := by
  simp [fixRow, h]

theorem fixRow_length_of_short (n : Nat) (r : List PyStr) (h : r.length + 1 = n) :
    (fixRow n r).length = n := by
  simp only [fixRow]
  rw [if_pos (by omega)]
  simp
  omega

/-- Claim C5: a row short by exactly one cell relative to the header is
padded with one absent trailing cell and the table decodes normally; any
other cell-count mismatch makes the whole decode fail with the structural
(dataframe shape) error, never a silent coercion. -/
theorem c5_current_padding (snap : HeaderSnap) (cols first : List PyStr)
    (rest : List (List PyStr)) (mapped : List PyStr)
    (hm : colsMapped cols = .ok mapped) (hnd : mapped.Nodup)
    (hT : str "Title" ∈ mapped) (hP : str "PremiereDate" ∈ mapped)
    (hnotes : notesInRow first = false) :
    (∀ r : List PyStr, r.length + 1 = cols.length →
      fixRow cols.length r = r.map some ++ [none]) ∧
    ((∀ r ∈ first :: rest, r.length = cols.length ∨ r.length + 1 = cols.length) →
      ∃ recs, parse_current_shows snap (cols :: first :: rest) = .ok recs) ∧
    ((∃ r ∈ first :: rest, r.length ≠ cols.length ∧ r.length + 1 ≠ cols.length) →
      parse_current_shows snap (cols :: first :: rest) = .error .shapeError) := by
  have hdedup : firstDedup [] mapped = mapped :=
    firstDedup_eq_self mapped [] hnd (by simp)
  have hlen : mapped.length = cols.length := colsMapped_length cols mapped hm
  have hunfold : parse_current_shows snap (cols :: first :: rest) =
      buildCurrentRecords snap mapped
        (blankRowFix cols.length ((first :: rest).map (fixRow cols.length))) := by
    simp only [parse_current_shows, hnotes, Bool.false_eq_true, if_false, hm, hdedup]
  refine ⟨?_, ?_, ?_⟩
  · intro r hr
    simp only [fixRow]
    rw [if_pos (by omega)]
  · intro hall
    rw [hunfold]
    have hany : ∀ r ∈ blankRowFix cols.length ((first :: rest).map (fixRow cols.length)),
        r.length = mapped.length := by
      intro r hrmem
      rw [hlen]
      simp only [blankRowFix] at hrmem
      by_cases h2 : cols.length = 2
      · rw [if_pos h2] at hrmem
        rcases List.mem_append.mp hrmem with hleft | hright
        · rcases List.mem_map.mp hleft with ⟨r0, hr0, rfl⟩
          rcases hall r0 hr0 with he | hs
          · exact fixRow_length_of_eq _ _ he
          · exact fixRow_length_of_short _ _ hs
        · simp at hright
          rw [hright, h2]
          rfl
      · rw [if_neg h2] at hrmem
        rcases List.mem_map.mp hrmem with ⟨r0, hr0, rfl⟩
        rcases hall r0 hr0 with he | hs
        · exact fixRow_length_of_eq _ _ he
        · exact fixRow_length_of_short _ _ hs
    have hanyfalse : ¬ ((blankRowFix cols.length
        ((first :: rest).map (fixRow cols.length))).any
          (fun r => decide (r.length ≠ mapped.length)) = true) := by
      simp only [List.any_eq_true, decide_eq_true_eq]
      rintro ⟨r, hrmem, hne⟩
      exact hne (hany r hrmem)
    simp only [buildCurrentRecords]
    rw [if_neg hanyfalse, if_pos hT, if_pos hP]
    exact ⟨_, rfl⟩
  · rintro ⟨r0, hr0mem, hne1, hne2⟩
    rw [hunfold]
    have hanytrue : ((blankRowFix cols.length
        ((first :: rest).map (fixRow cols.length))).any
          (fun r => decide (r.length ≠ mapped.length)) = true) := by
      simp only [List.any_eq_true, decide_eq_true_eq]
      refine ⟨fixRow cols.length r0, ?_, ?_⟩
      · simp only [blankRowFix]
        by_cases h2 : cols.length = 2
        · rw [if_pos h2]
          exact List.mem_append_left _ (List.mem_map_of_mem _ hr0mem)
        · rw [if_neg h2]
          exact List.mem_map_of_mem _ hr0mem
      · rw [hlen]
        simp only [fixRow]
        rw [if_pos hne1]
        simp
        omega
    simp only [buildCurrentRecords]
    rw [if_pos hanytrue]

theorem c5_current_padding_witness :
    fixRow curHdr.length [str "B", str "1999", str "2"] =
      [str "B", str "1999", str "2"].map some ++ [none] ∧
    parse_current_shows snap0
        (curHdr :: [str "A", str "June 5, 1999", str "3", str "x"] ::
          [[str "B", str "1999"]]) = .error .shapeError :=
  ⟨(c5_current_padding snap0 curHdr [str "A", str "June 5, 1999", str "3", str "x"]
      [[str "B", str "1999"]] [str "Title", str "PremiereDate", str "NumberSeasons", str "_notes"]
      (by decide) (by decide) (by decide) (by decide) (by decide)).1
      [str "B", str "1999", str "2"] (by decide),
   (c5_current_padding snap0 curHdr [str "A", str "June 5, 1999", str "3", str "x"]
      [[str "B", str "1999"]] [str "Title", str "PremiereDate", str "NumberSeasons", str "_notes"]
      (by decide) (by decide) (by decide) (by decide) (by decide)).2.2 (by decide)⟩
